import Mathlib

/-!
Shallow embedding of the phone-api validator (package `api`, file with
`ValidatePhoneNumber` and its helpers) in Lean 4.

Go strings are modelled as `List Char` (all data handled by the validator is
ASCII, where Go's byte indexing and char indexing agree).  Go map literals are
modelled as their lookup functions.  Go `error` values produced by `errors.New`
are modelled by the inductive `PhoneError`, one constructor per distinct
message.
-/

namespace PhoneApi

abbrev Str := List Char

deriving instance DecidableEq for Except

/-- Errors produced by the validator, one constructor per `errors.New` message
in the source. -/
inductive PhoneError where
  /-- "phoneNumber is required" -/
  | phoneNumberRequired
  /-- "invalid spacing pattern" -/
  | invalidSpacing
  /-- "phone number contains invalid characters" -/
  | invalidCharacters
  /-- "unable to extract dialing code" -/
  | unableToExtractDialingCode
  /-- "unsupported country dialing code" -/
  | unsupportedDialingCode
  /-- "countryCode is required for numbers without country code" -/
  | countryCodeRequired
  /-- "country code must be 2 characters (ISO 3166-1 alpha-2)" -/
  | countryCodeMustBe2Chars
  /-- "unsupported country code" -/
  | unsupportedCountryCode
  /-- "phone number length is invalid for country " ++ cc -/
  | lengthInvalid (cc : Str)
  deriving DecidableEq, Repr

/-- `var CountryPhoneLengths = map[string][2]int{...}`, as its lookup
function. -/
def CountryPhoneLengths (cc : Str) : Option (Nat × Nat) :=
  if cc = ['U', 'S'] then some (10, 10)
  else if cc = ['C', 'A'] then some (10, 10)
  else if cc = ['M', 'X'] then some (10, 10)
  else if cc = ['E', 'S'] then some (9, 9)
  else if cc = ['P', 'T'] then some (9, 9)
  else if cc = ['G', 'B'] then some (10, 11)
  else if cc = ['F', 'R'] then some (10, 10)
  else if cc = ['D', 'E'] then some (10, 12)
  else if cc = ['I', 'T'] then some (9, 11)
  else if cc = ['B', 'R'] then some (10, 11)
  else none

/-- `var CountryDialingCodes = map[string]string{...}`, as its lookup
function. -/
def CountryDialingCodes (cc : Str) : Option Str :=
  if cc = ['U', 'S'] then some ['1']
  else if cc = ['C', 'A'] then some ['1']
  else if cc = ['M', 'X'] then some ['5', '2']
  else if cc = ['E', 'S'] then some ['3', '4']
  else if cc = ['P', 'T'] then some ['3', '5', '1']
  else if cc = ['G', 'B'] then some ['4', '4']
  else if cc = ['F', 'R'] then some ['3', '3']
  else if cc = ['D', 'E'] then some ['4', '9']
  else if cc = ['I', 'T'] then some ['3', '9']
  else if cc = ['B', 'R'] then some ['5', '5']
  else none

/-- `var DialingCodeToCountry = map[string]string{...}`, as its lookup
function. -/
def DialingCodeToCountry (dc : Str) : Option Str :=
  if dc = ['1'] then some ['U', 'S']
  else if dc = ['5', '2'] then some ['M', 'X']
  else if dc = ['3', '4'] then some ['E', 'S']
  else if dc = ['3', '5', '1'] then some ['P', 'T']
  else if dc = ['4', '4'] then some ['G', 'B']
  else if dc = ['3', '3'] then some ['F', 'R']
  else if dc = ['4', '9'] then some ['D', 'E']
  else if dc = ['3', '9'] then some ['I', 'T']
  else if dc = ['5', '5'] then some ['B', 'R']
  else none

/-- The keys of `DialingCodeToCountry` (the set iterated over by
`hasDialingCode`). -/
def dialingCodeKeys : List Str :=
  [['1'], ['5', '2'], ['3', '4'], ['3', '5', '1'], ['4', '4'], ['3', '3'],
   ['4', '9'], ['3', '9'], ['5', '5']]

/-- The keys of `CountryPhoneLengths`: the ten supported country codes. -/
def supportedCountryCodes : List Str :=
  [['U', 'S'], ['C', 'A'], ['M', 'X'], ['E', 'S'], ['P', 'T'], ['G', 'B'],
   ['F', 'R'], ['D', 'E'], ['I', 'T'], ['B', 'R']]

structure PhoneValidationResponse where
  phoneNumber : Str
  countryCode : Str
  areaCode : Str
  localPhoneNumber : Str
  deriving DecidableEq, Repr

/-- Go regexp `\d` (RE2): an ASCII decimal digit. -/
def isDigitChar (c : Char) : Bool :=
  48 ≤ c.toNat && c.toNat ≤ 57

/-- Go regexp `\s` (RE2): one of `[\t\n\f\r ]`. -/
def isSpaceChar (c : Char) : Bool :=
  c = '\t' || c = '\n' || c = '\x0c' || c = '\r' || c = ' '

/-- A character accepted by the regexp `^[\d\s+]+$` in `cleanPhoneNumber`. -/
def isValidPhoneChar (c : Char) : Bool :=
  isDigitChar c || isSpaceChar c || c = '+'

/-- `strings.Split(s, " ")`. -/
def splitOnSpace : Str → List Str
  | [] => [[]]
  | c :: rest =>
    match splitOnSpace rest with
    | [] => [[c]]
    | p :: ps => if c = ' ' then [] :: p :: ps else (c :: p) :: ps

/-- `validateSpacing`: reject when the original string contains a space and
splits into exactly 4 parts. -/
def validateSpacing (s : Str) : Option PhoneError :=
  if s.contains ' ' then
    if (splitOnSpace s).length = 4 then some .invalidSpacing else none
  else none

/-- `cleanPhoneNumber`: the regexp check `^[\d\s+]+$` then
`strings.ReplaceAll(s, " ", "")`. -/
def cleanPhoneNumber (s : Str) : Except PhoneError Str :=
  if s ≠ [] ∧ s.all isValidPhoneChar then .ok (s.filter (· ≠ ' '))
  else .error .invalidCharacters

/-- `hasDialingCode`: some known dialing code is a prefix of the string. -/
def hasDialingCode (s : Str) : Bool :=
  dialingCodeKeys.any (fun dc => dc.isPrefixOf s)

/-- `extractDialingCode`: probe the 3-, then 2-, then 1-character prefix
against `DialingCodeToCountry`. -/
def extractDialingCode (s : Str) : Except PhoneError (Str × Str) :=
  if 3 ≤ s.length ∧ (DialingCodeToCountry (s.take 3)).isSome then
    .ok (s.take 3, s.drop 3)
  else if 2 ≤ s.length ∧ (DialingCodeToCountry (s.take 2)).isSome then
    .ok (s.take 2, s.drop 2)
  else if 1 ≤ s.length ∧ (DialingCodeToCountry (s.take 1)).isSome then
    .ok (s.take 1, s.drop 1)
  else .error .unableToExtractDialingCode

/-- `splitNationalNumber`: country-specific area-code/local-number split. -/
def splitNationalNumber (n cc : Str) : Str × Str :=
  if 3 ≤ n.length then
    if cc = ['U', 'S'] ∨ cc = ['C', 'A'] ∨ cc = ['M', 'X'] then
      (n.take 3, n.drop 3)
    else if cc = ['E', 'S'] ∨ cc = ['P', 'T'] ∨ cc = ['F', 'R'] ∨
        cc = ['I', 'T'] ∨ cc = ['B', 'R'] then
      (n.take 2, n.drop 2)
    else if cc = ['G', 'B'] then
      if 4 ≤ n.length then (n.take 4, n.drop 4) else (n.take 3, n.drop 3)
    else if cc = ['D', 'E'] then
      (n.take 3, n.drop 3)
    else ([], n)
  else ([], n)

/-- `parsePhoneNumber`: strip a leading `+`, detect/extract the dialing code or
fall back to the provided country code, then split the national number. -/
def parsePhoneNumber (phoneNumber providedCountryCode : Str) :
    Except PhoneError (Str × Str × Str) :=
  let hasPlus := phoneNumber.head? = some '+'
  let rest := if hasPlus then phoneNumber.tail else phoneNumber
  if hasPlus || hasDialingCode rest then
    match extractDialingCode rest with
    | .error e => .error e
    | .ok (dialingCode, remaining) =>
      match DialingCodeToCountry dialingCode with
      | none => .error .unsupportedDialingCode
      | some country =>
        let (areaCode, localNumber) := splitNationalNumber remaining country
        .ok (country, areaCode, localNumber)
  else
    if providedCountryCode = [] then .error .countryCodeRequired
    else
      let (areaCode, localNumber) :=
        splitNationalNumber rest providedCountryCode
      .ok (providedCountryCode, areaCode, localNumber)

/-- `validateCountryCode`: exactly 2 characters and a key of
`CountryPhoneLengths`. -/
def validateCountryCode (cc : Str) : Option PhoneError :=
  if cc.length ≠ 2 then some .countryCodeMustBe2Chars
  else if (CountryPhoneLengths cc).isNone then some .unsupportedCountryCode
  else none

/-- `validatePhoneLength`: the area+local digit count must lie in the
country's inclusive range. -/
def validatePhoneLength (nationalNumber cc : Str) : Option PhoneError :=
  match CountryPhoneLengths cc with
  | none => some .unsupportedCountryCode
  | some (minLength, maxLength) =>
    if nationalNumber.length < minLength ∨ maxLength < nationalNumber.length
    then some (.lengthInvalid cc)
    else none

/-- `formatPhoneNumber`: `"+" + dialingCode + areaCode + localNumber` (a Go
map read of a missing key yields the empty string). -/
def formatPhoneNumber (cc areaCode localNumber : Str) : Str :=
  '+' :: ((CountryDialingCodes cc).getD []) ++ areaCode ++ localNumber

/-- `ValidatePhoneNumber`: the full pipeline. -/
def ValidatePhoneNumber (phoneNumber countryCode : Str) :
    Except PhoneError PhoneValidationResponse :=
  if phoneNumber = [] then .error .phoneNumberRequired
  else
    match validateSpacing phoneNumber with
    | some e => .error e
    | none =>
      match cleanPhoneNumber phoneNumber with
      | .error e => .error e
      | .ok cleanedNumber =>
        match parsePhoneNumber cleanedNumber countryCode with
        | .error e => .error e
        | .ok (cc, areaCode, localNumber) =>
          match validateCountryCode cc with
          | some e => .error e
          | none =>
            match validatePhoneLength (areaCode ++ localNumber) cc with
            | some e => .error e
            | none =>
              .ok ⟨formatPhoneNumber cc areaCode localNumber, cc,
                   areaCode, localNumber⟩

/-! ### Helper lemmas -/

lemma isDigitChar_ne_space {c : Char} (h : isDigitChar c = true) : c ≠ ' ' := by
  rintro rfl; exact absurd h (by decide)

lemma isValidPhoneChar_of_isDigitChar {c : Char} (h : isDigitChar c = true) :
    isValidPhoneChar c = true := by
  simp [isValidPhoneChar, h]

lemma all_valid_of_all_digit {n : Str} (h : n.all isDigitChar = true) :
    n.all isValidPhoneChar = true := by
  rw [List.all_eq_true] at h ⊢
  exact fun c hc => isValidPhoneChar_of_isDigitChar (h c hc)

lemma not_mem_space_of_all_digit {n : Str} (h : n.all isDigitChar = true) :
    ' ' ∉ n := by
  rw [List.all_eq_true] at h
  intro hmem
  exact isDigitChar_ne_space (h _ hmem) rfl

lemma validateSpacing_eq_none {s : Str} (h : ' ' ∉ s) : validateSpacing s = none := by
  simp [validateSpacing]
  exact fun hm => absurd hm h

lemma cleanPhoneNumber_of_no_space {s : Str} (hne : s ≠ [])
    (hv : s.all isValidPhoneChar = true) (hsp : ' ' ∉ s) :
    cleanPhoneNumber s = .ok s := by
  rw [cleanPhoneNumber, if_pos ⟨hne, hv⟩]
  congr 1
  rw [List.filter_eq_self]
  intro a ha
  simp only [decide_eq_true_eq]
  intro h
  exact hsp (h ▸ ha)

lemma canon_no_space {dc n : Str} (hdc : dc.all isDigitChar = true)
    (hn : n.all isDigitChar = true) : ' ' ∉ ('+' :: (dc ++ n)) := by
  intro h
  rcases List.mem_cons.mp h with h | h
  · exact absurd h (by decide)
  · rcases List.mem_append.mp h with h | h
    · exact not_mem_space_of_all_digit hdc h
    · exact not_mem_space_of_all_digit hn h

lemma canon_all_valid {dc n : Str} (hdc : dc.all isDigitChar = true)
    (hn : n.all isDigitChar = true) :
    ('+' :: (dc ++ n)).all isValidPhoneChar = true := by
  rw [List.all_cons, List.all_append]
  rw [all_valid_of_all_digit hdc, all_valid_of_all_digit hn]
  decide

lemma split_concat (n cc : Str) :
    (splitNationalNumber n cc).1 ++ (splitNationalNumber n cc).2 = n := by
  unfold splitNationalNumber
  split_ifs <;> simp

lemma extractDialingCode_prepend (dc n : Str) (hdc : dc ∈ dialingCodeKeys)
    (hn : 2 ≤ n.length) : extractDialingCode (dc ++ n) = .ok (dc, n) := by
  obtain ⟨a, b, t, rfl⟩ : ∃ a b t, n = a :: b :: t := by
    match n, hn with | a :: b :: t, _ => exact ⟨a, b, t, rfl⟩
  fin_cases hdc <;> simp [extractDialingCode, DialingCodeToCountry]

lemma DialingCodeToCountry_eq_none_of_not_mem {d : Str} (h : d ∉ dialingCodeKeys) :
    DialingCodeToCountry d = none := by
  have h1 : d ≠ ['1'] := by rintro rfl; exact h (by decide)
  have h2 : d ≠ ['5', '2'] := by rintro rfl; exact h (by decide)
  have h3 : d ≠ ['3', '4'] := by rintro rfl; exact h (by decide)
  have h4 : d ≠ ['3', '5', '1'] := by rintro rfl; exact h (by decide)
  have h5 : d ≠ ['4', '4'] := by rintro rfl; exact h (by decide)
  have h6 : d ≠ ['3', '3'] := by rintro rfl; exact h (by decide)
  have h7 : d ≠ ['4', '9'] := by rintro rfl; exact h (by decide)
  have h8 : d ≠ ['3', '9'] := by rintro rfl; exact h (by decide)
  have h9 : d ≠ ['5', '5'] := by rintro rfl; exact h (by decide)
  simp [DialingCodeToCountry, h1, h2, h3, h4, h5, h6, h7, h8, h9]

lemma mem_dialingCodeKeys_of_isSome {d : Str}
    (h : (DialingCodeToCountry d).isSome = true) : d ∈ dialingCodeKeys := by
  by_contra hmem
  rw [DialingCodeToCountry_eq_none_of_not_mem hmem] at h
  simp at h

lemma extractDialingCode_error_of_not_has {s : Str} (h : hasDialingCode s = false) :
    extractDialingCode s = .error .unableToExtractDialingCode := by
  rw [hasDialingCode, List.any_eq_false] at h
  rw [extractDialingCode]
  split_ifs with h1 h2 h3
  · exact absurd (List.isPrefixOf_iff_prefix.mpr (List.take_prefix _ _))
      (h _ (mem_dialingCodeKeys_of_isSome h1.2))
  · exact absurd (List.isPrefixOf_iff_prefix.mpr (List.take_prefix _ _))
      (h _ (mem_dialingCodeKeys_of_isSome h2.2))
  · exact absurd (List.isPrefixOf_iff_prefix.mpr (List.take_prefix _ _))
      (h _ (mem_dialingCodeKeys_of_isSome h3.2))
  · rfl

lemma CountryPhoneLengths_eq_none_of_not_mem {cc : Str}
    (h : cc ∉ supportedCountryCodes) : CountryPhoneLengths cc = none := by
  have h1 : cc ≠ ['U', 'S'] := by rintro rfl; exact h (by decide)
  have h2 : cc ≠ ['C', 'A'] := by rintro rfl; exact h (by decide)
  have h3 : cc ≠ ['M', 'X'] := by rintro rfl; exact h (by decide)
  have h4 : cc ≠ ['E', 'S'] := by rintro rfl; exact h (by decide)
  have h5 : cc ≠ ['P', 'T'] := by rintro rfl; exact h (by decide)
  have h6 : cc ≠ ['G', 'B'] := by rintro rfl; exact h (by decide)
  have h7 : cc ≠ ['F', 'R'] := by rintro rfl; exact h (by decide)
  have h8 : cc ≠ ['D', 'E'] := by rintro rfl; exact h (by decide)
  have h9 : cc ≠ ['I', 'T'] := by rintro rfl; exact h (by decide)
  have h10 : cc ≠ ['B', 'R'] := by rintro rfl; exact h (by decide)
  simp [CountryPhoneLengths, h1, h2, h3, h4, h5, h6, h7, h8, h9, h10]

lemma parsePhoneNumber_plus (dc n C' : Str)
    (hdc : dc ∈ dialingCodeKeys) (hn2 : 2 ≤ n.length)
    (hC : DialingCodeToCountry dc = some C') :
    parsePhoneNumber ('+' :: (dc ++ n)) [] =
      .ok (C', (splitNationalNumber n C').1, (splitNationalNumber n C').2) := by
  have he := extractDialingCode_prepend dc n hdc hn2
  simp [parsePhoneNumber, he, hC]

lemma ValidatePhoneNumber_plus_ok (dc n C' : Str)
    (hdc : dc ∈ dialingCodeKeys) (hdcd : dc.all isDigitChar = true)
    (hn : n.all isDigitChar = true) (hn2 : 2 ≤ n.length)
    (hC : DialingCodeToCountry dc = some C')
    (hvc : validateCountryCode C' = none)
    (hpl : validatePhoneLength
        ((splitNationalNumber n C').1 ++ (splitNationalNumber n C').2) C' = none) :
    ValidatePhoneNumber ('+' :: (dc ++ n)) [] =
      .ok ⟨formatPhoneNumber C' (splitNationalNumber n C').1 (splitNationalNumber n C').2,
           C', (splitNationalNumber n C').1, (splitNationalNumber n C').2⟩ := by
  have hsp := validateSpacing_eq_none (canon_no_space hdcd hn)
  have hcl := cleanPhoneNumber_of_no_space (by simp) (canon_all_valid hdcd hn)
      (canon_no_space hdcd hn)
  have hpar := parsePhoneNumber_plus dc n C' hdc hn2 hC
  rw [ValidatePhoneNumber, if_neg (by simp)]
  simp only [hsp, hcl, hpar, hvc, hpl]

lemma splitNationalNumber_CA (n : Str) :
    splitNationalNumber n ['C', 'A'] = splitNationalNumber n ['U', 'S'] := by
  simp [splitNationalNumber]

lemma extractDialingCode_error_cases {s : Str} {e : PhoneError}
    (h : extractDialingCode s = .error e) : e = .unableToExtractDialingCode := by
  rw [extractDialingCode] at h
  split_ifs at h
  all_goals simp_all

lemma parsePhoneNumber_error_cases {p q : Str} {e : PhoneError}
    (h : parsePhoneNumber p q = .error e) :
    e = .unableToExtractDialingCode ∨ e = .unsupportedDialingCode ∨
      e = .countryCodeRequired := by
  have main : ∀ (r : Str),
      (match extractDialingCode r with
        | Except.error e => Except.error e
        | Except.ok (dialingCode, remaining) =>
          match DialingCodeToCountry dialingCode with
          | none => Except.error PhoneError.unsupportedDialingCode
          | some country =>
            match splitNationalNumber remaining country with
            | (areaCode, localNumber) =>
              (Except.ok (country, areaCode, localNumber) :
                Except PhoneError (Str × Str × Str))) = .error e →
      e = .unableToExtractDialingCode ∨ e = .unsupportedDialingCode ∨
        e = .countryCodeRequired := by
    intro r hm
    cases hE : extractDialingCode r with
    | error e' =>
      simp only [hE] at hm
      injection hm with h2
      exact Or.inl (h2 ▸ extractDialingCode_error_cases hE)
    | ok pr =>
      obtain ⟨dcx, rem⟩ := pr
      simp only [hE] at hm
      cases hL : DialingCodeToCountry dcx with
      | none =>
        simp only [hL] at hm
        injection hm with h2
        exact Or.inr (Or.inl h2.symm)
      | some c =>
        simp only [hL] at hm
        simp at hm
  rw [parsePhoneNumber] at h
  split at h
  · rename_i hph
    rw [if_pos (by simp [hph])] at h
    exact main _ h
  · rename_i hph
    by_cases hd : hasDialingCode p = true
    · rw [if_pos (by simp [hd])] at h
      exact main _ h
    · rw [if_neg (by simp [hph, hd])] at h
      by_cases hq : q = []
      · rw [if_pos hq] at h
        injection h with h2
        exact Or.inr (Or.inr h2.symm)
      · rw [if_neg hq] at h
        simp at h

lemma validateCountryCode_error_cases {cc : Str} {e : PhoneError}
    (h : validateCountryCode cc = some e) :
    e = .countryCodeMustBe2Chars ∨ e = .unsupportedCountryCode := by
  rw [validateCountryCode] at h
  split_ifs at h
  all_goals simp_all

lemma validatePhoneLength_error_cases {n cc : Str} {e : PhoneError}
    (h : validatePhoneLength n cc = some e) :
    e = .unsupportedCountryCode ∨ e = .lengthInvalid cc := by
  rw [validatePhoneLength] at h
  split at h
  · simp_all
  · split_ifs at h
    all_goals simp_all

/-! ### Claim theorems -/

/-- Claim C4: every non-empty input that contains a space and splits on single
spaces into exactly 4 parts is rejected with the `invalid spacing pattern`
error, regardless of character validity; in particular such an input never
yields the `invalid characters` error. -/
theorem C4_spacing_pattern (s cc : Str) (h0 : s ≠ [])
    (hsp : s.contains ' ' = true) (h4 : (splitOnSpace s).length = 4) :
    ValidatePhoneNumber s cc = .error .invalidSpacing ∧
    ValidatePhoneNumber s cc ≠ .error .invalidCharacters := by
  have hv : validateSpacing s = some .invalidSpacing := by
    rw [validateSpacing, if_pos hsp, if_pos h4]
  have heq : ValidatePhoneNumber s cc = .error .invalidSpacing := by
    rw [ValidatePhoneNumber, if_neg h0]
    simp only [hv]
  exact ⟨heq, by rw [heq]; simp⟩

theorem C4_witness :
    (['a', ' ', 'b', ' ', 'c', ' ', 'd'] : Str) ≠ [] ∧
    (['a', ' ', 'b', ' ', 'c', ' ', 'd'] : Str).contains ' ' = true ∧
    (splitOnSpace ['a', ' ', 'b', ' ', 'c', ' ', 'd']).length = 4 ∧
    (ValidatePhoneNumber ['a', ' ', 'b', ' ', 'c', ' ', 'd'] [] =
        .error .invalidSpacing ∧
      ValidatePhoneNumber ['a', ' ', 'b', ' ', 'c', ' ', 'd'] [] ≠
        .error .invalidCharacters) :=
  ⟨by decide, by decide, by decide,
   C4_spacing_pattern ['a', ' ', 'b', ' ', 'c', ' ', 'd'] [] (by decide)
     (by decide) (by decide)⟩

/-- Claim C5: dialing-code extraction probes the 3-character, then the
2-character, then the 1-character prefix against the known dialing-code set,
choosing the first (longest) match. -/
theorem C5_longest_match (s : Str) :
    (3 ≤ s.length → (DialingCodeToCountry (s.take 3)).isSome = true →
      extractDialingCode s = .ok (s.take 3, s.drop 3)) ∧
    ((¬ 3 ≤ s.length ∨ DialingCodeToCountry (s.take 3) = none) →
      2 ≤ s.length → (DialingCodeToCountry (s.take 2)).isSome = true →
      extractDialingCode s = .ok (s.take 2, s.drop 2)) ∧
    ((¬ 3 ≤ s.length ∨ DialingCodeToCountry (s.take 3) = none) →
      (¬ 2 ≤ s.length ∨ DialingCodeToCountry (s.take 2) = none) →
      1 ≤ s.length → (DialingCodeToCountry (s.take 1)).isSome = true →
      extractDialingCode s = .ok (s.take 1, s.drop 1)) := by
  refine ⟨?_, ?_, ?_⟩
  · intro h3 hs
    rw [extractDialingCode, if_pos ⟨h3, hs⟩]
  · intro hor h2 hs
    have c1 : ¬(3 ≤ s.length ∧ (DialingCodeToCountry (s.take 3)).isSome = true) := by
      rintro ⟨ha, hb⟩
      rcases hor with h | h
      · exact h ha
      · rw [h] at hb; simp at hb
    rw [extractDialingCode, if_neg c1, if_pos ⟨h2, hs⟩]
  · intro hor3 hor2 h1 hs
    have c1 : ¬(3 ≤ s.length ∧ (DialingCodeToCountry (s.take 3)).isSome = true) := by
      rintro ⟨ha, hb⟩
      rcases hor3 with h | h
      · exact h ha
      · rw [h] at hb; simp at hb
    have c2 : ¬(2 ≤ s.length ∧ (DialingCodeToCountry (s.take 2)).isSome = true) := by
      rintro ⟨ha, hb⟩
      rcases hor2 with h | h
      · exact h ha
      · rw [h] at hb; simp at hb
    rw [extractDialingCode, if_neg c1, if_neg c2, if_pos ⟨h1, hs⟩]

theorem C5_witness :
    (3 ≤ (['3', '5', '1', '9', '1', '2'] : Str).length ∧
      (DialingCodeToCountry ((['3', '5', '1', '9', '1', '2'] : Str).take 3)).isSome =
        true ∧
      extractDialingCode ['3', '5', '1', '9', '1', '2'] =
        .ok ((['3', '5', '1', '9', '1', '2'] : Str).take 3,
          (['3', '5', '1', '9', '1', '2'] : Str).drop 3)) ∧
    DialingCodeToCountry ['3', '5'] = none ∧ DialingCodeToCountry ['3'] = none :=
  ⟨⟨by decide, by decide,
    (C5_longest_match ['3', '5', '1', '9', '1', '2']).1 (by decide) (by decide)⟩,
   by decide, by decide⟩

/-- Claim C6: the area-code/local-number split uses a 3-digit prefix for US,
CA, MX, DE; a 2-digit prefix for ES, PT, FR, IT, BR; for GB a 4-digit prefix
when the national number has length at least 4 and a 3-digit prefix at length
3; and an empty area code with the whole remainder as local number whenever
fewer than 3 digits remain. -/
theorem C6_split_rules (n cc : Str) :
    (3 ≤ n.length →
      ((cc = ['U', 'S'] ∨ cc = ['C', 'A'] ∨ cc = ['M', 'X'] ∨ cc = ['D', 'E']) →
        splitNationalNumber n cc = (n.take 3, n.drop 3)) ∧
      ((cc = ['E', 'S'] ∨ cc = ['P', 'T'] ∨ cc = ['F', 'R'] ∨ cc = ['I', 'T'] ∨
          cc = ['B', 'R']) →
        splitNationalNumber n cc = (n.take 2, n.drop 2)) ∧
      (cc = ['G', 'B'] → 4 ≤ n.length →
        splitNationalNumber n cc = (n.take 4, n.drop 4)) ∧
      (cc = ['G', 'B'] → n.length = 3 →
        splitNationalNumber n cc = (n.take 3, n.drop 3))) ∧
    (n.length < 3 → splitNationalNumber n cc = ([], n)) := by
  constructor
  · intro h3
    refine ⟨?_, ?_, ?_, ?_⟩
    · rintro (rfl | rfl | rfl | rfl)
      all_goals simp [splitNationalNumber, h3]
    · rintro (rfl | rfl | rfl | rfl | rfl)
      all_goals simp [splitNationalNumber, h3]
    · rintro rfl h4
      simp [splitNationalNumber, h3, h4]
    · rintro rfl h33
      simp [splitNationalNumber, h33]
  · intro hlt
    rw [splitNationalNumber, if_neg (by omega)]

theorem C6_witness :
    3 ≤ (['2', '1', '2', '5', '6', '9', '0', '1', '2', '3'] : Str).length ∧
    splitNationalNumber ['2', '1', '2', '5', '6', '9', '0', '1', '2', '3']
        ['U', 'S'] = (['2', '1', '2'], ['5', '6', '9', '0', '1', '2', '3']) ∧
    splitNationalNumber ['1', '2'] ['U', 'S'] = ([], ['1', '2']) := by
  refine ⟨by decide, ?_, ?_⟩
  · have h := ((C6_split_rules ['2', '1', '2', '5', '6', '9', '0', '1', '2', '3']
      ['U', 'S']).1 (by decide)).1 (by decide)
    exact h.trans (by decide)
  · exact (C6_split_rules ['1', '2'] ['U', 'S']).2 (by decide)

/-- Claim C7: once an input has reached length validation with resolved
country `C` (range `[mn, mx]`), validation succeeds exactly when the
area+local digit count lies in the inclusive range, and otherwise fails with
the length-invalid error naming `C`. -/
theorem C7_length_validation (s cc cl C a l : Str) (mn mx : Nat)
    (h0 : s ≠ []) (h1 : validateSpacing s = none)
    (h2 : cleanPhoneNumber s = .ok cl)
    (h3 : parsePhoneNumber cl cc = .ok (C, a, l))
    (h4 : validateCountryCode C = none)
    (h5 : CountryPhoneLengths C = some (mn, mx)) :
    (mn ≤ (a ++ l).length ∧ (a ++ l).length ≤ mx →
      ValidatePhoneNumber s cc = .ok ⟨formatPhoneNumber C a l, C, a, l⟩) ∧
    ((a ++ l).length < mn ∨ mx < (a ++ l).length →
      ValidatePhoneNumber s cc = .error (.lengthInvalid C)) := by
  constructor
  · intro hin
    have hpl : validatePhoneLength (a ++ l) C = none := by
      simp only [List.length_append] at hin
      simp [validatePhoneLength, h5]
      omega
    rw [ValidatePhoneNumber, if_neg h0]
    simp only [h1, h2, h3, h4, hpl]
  · intro hout
    have hpl : validatePhoneLength (a ++ l) C = some (.lengthInvalid C) := by
      simp only [List.length_append] at hout
      simp [validatePhoneLength, h5]
      omega
    rw [ValidatePhoneNumber, if_neg h0]
    simp only [h1, h2, h3, h4, hpl]

theorem C7_witness :
    (['+', '1', '2', '1', '2', '5', '6', '9'] : Str) ≠ [] ∧
    validateSpacing ['+', '1', '2', '1', '2', '5', '6', '9'] = none ∧
    cleanPhoneNumber ['+', '1', '2', '1', '2', '5', '6', '9'] =
      .ok ['+', '1', '2', '1', '2', '5', '6', '9'] ∧
    parsePhoneNumber ['+', '1', '2', '1', '2', '5', '6', '9'] [] =
      .ok (['U', 'S'], ['2', '1', '2'], ['5', '6', '9']) ∧
    validateCountryCode ['U', 'S'] = none ∧
    CountryPhoneLengths ['U', 'S'] = some (10, 10) ∧
    ((['2', '1', '2'] ++ ['5', '6', '9'] : Str).length < 10 ∨
      10 < (['2', '1', '2'] ++ ['5', '6', '9'] : Str).length) ∧
    ValidatePhoneNumber ['+', '1', '2', '1', '2', '5', '6', '9'] [] =
      .error (.lengthInvalid ['U', 'S']) :=
  ⟨by decide, by decide, by decide, by decide, by decide, by decide, by decide,
   (C7_length_validation ['+', '1', '2', '1', '2', '5', '6', '9'] []
       ['+', '1', '2', '1', '2', '5', '6', '9'] ['U', 'S'] ['2', '1', '2']
       ['5', '6', '9'] 10 10 (by decide) (by decide) (by decide) (by decide)
       (by decide) (by decide)).2 (by decide)⟩

/-- Claim C8: the supplied country code is matched case-sensitively — any
2-character code outside the ten uppercase supported codes makes validation
of a number without a detectable dialing code fail with the
`unsupported country code` error. -/
theorem C8_case_sensitive (s cc cl : Str)
    (h0 : s ≠ []) (h1 : validateSpacing s = none)
    (h2 : cleanPhoneNumber s = .ok cl)
    (hplus : cl.head? ≠ some '+')
    (hdc : hasDialingCode cl = false)
    (hlen : cc.length = 2)
    (hmem : cc ∉ supportedCountryCodes) :
    ValidatePhoneNumber s cc = .error .unsupportedCountryCode := by
  have hcc : cc ≠ [] := by
    intro h
    rw [h] at hlen
    simp at hlen
  have hpar : parsePhoneNumber cl cc =
      .ok (cc, (splitNationalNumber cl cc).1, (splitNationalNumber cl cc).2) := by
    rw [parsePhoneNumber]
    simp [hplus, hdc, hcc]
  have hvc : validateCountryCode cc = some .unsupportedCountryCode := by
    simp [validateCountryCode, hlen, CountryPhoneLengths_eq_none_of_not_mem hmem]
  rw [ValidatePhoneNumber, if_neg h0]
  simp only [h1, h2, hpar, hvc]

theorem C8_witness :
    (['2', '1', '2', '5', '6', '9', '0', '1', '2', '3'] : Str) ≠ [] ∧
    validateSpacing ['2', '1', '2', '5', '6', '9', '0', '1', '2', '3'] = none ∧
    cleanPhoneNumber ['2', '1', '2', '5', '6', '9', '0', '1', '2', '3'] =
      .ok ['2', '1', '2', '5', '6', '9', '0', '1', '2', '3'] ∧
    (['2', '1', '2', '5', '6', '9', '0', '1', '2', '3'] : Str).head? ≠ some '+' ∧
    hasDialingCode ['2', '1', '2', '5', '6', '9', '0', '1', '2', '3'] = false ∧
    (['u', 's'] : Str).length = 2 ∧
    (['u', 's'] : Str) ∉ supportedCountryCodes ∧
    ValidatePhoneNumber ['2', '1', '2', '5', '6', '9', '0', '1', '2', '3']
      ['u', 's'] = .error .unsupportedCountryCode :=
  ⟨by decide, by decide, by decide, by decide, by decide, by decide, by decide,
   C8_case_sensitive ['2', '1', '2', '5', '6', '9', '0', '1', '2', '3']
     ['u', 's'] ['2', '1', '2', '5', '6', '9', '0', '1', '2', '3'] (by decide)
     (by decide) (by decide) (by decide) (by decide) (by decide) (by decide)⟩

/-- Claim C2, counterexample: the input `+2` passes the spacing and character
checks and its digits begin with no known dialing code, yet validation fails
with `unable to extract dialing code`, not with the claimed
`unsupported country dialing code`. -/
theorem C2_counterexample :
    (['+', '2'] : Str) ≠ [] ∧
    validateSpacing ['+', '2'] = none ∧
    cleanPhoneNumber ['+', '2'] = .ok ['+', '2'] ∧
    (['2'] : Str).all isDigitChar = true ∧
    hasDialingCode ['2'] = false ∧
    ValidatePhoneNumber ['+', '2'] [] ≠ .error .unsupportedDialingCode ∧
    ValidatePhoneNumber ['+', '2'] [] = .error .unableToExtractDialingCode := by
  decide

/-- Claim C2, amended: for every non-empty input passing the spacing and
character checks whose normalized form starts with `+` followed by digits
that begin with no known dialing code, validation fails with the error
`unable to extract dialing code` (the `unsupported country dialing code`
branch of the source is unreachable, since extraction only returns known
codes). -/
theorem C2_unknown_code_error (s cc rest : Str)
    (h0 : s ≠ []) (h1 : validateSpacing s = none)
    (h2 : cleanPhoneNumber s = .ok ('+' :: rest))
    (_hd : rest.all isDigitChar = true)
    (h3 : hasDialingCode rest = false) :
    ValidatePhoneNumber s cc = .error .unableToExtractDialingCode := by
  have hpar : parsePhoneNumber ('+' :: rest) cc =
      .error .unableToExtractDialingCode := by
    rw [parsePhoneNumber]
    simp [extractDialingCode_error_of_not_has h3]
  rw [ValidatePhoneNumber, if_neg h0]
  simp only [h1, h2, hpar]

theorem C2_witness :
    (['+', '2'] : Str) ≠ [] ∧
    validateSpacing ['+', '2'] = none ∧
    cleanPhoneNumber ['+', '2'] = .ok ('+' :: ['2']) ∧
    (['2'] : Str).all isDigitChar = true ∧
    hasDialingCode ['2'] = false ∧
    ValidatePhoneNumber ['+', '2'] ['U', 'S'] =
      .error .unableToExtractDialingCode :=
  ⟨by decide, by decide, by decide, by decide, by decide,
   C2_unknown_code_error ['+', '2'] ['U', 'S'] ['2'] (by decide) (by decide)
     (by decide) (by decide) (by decide)⟩

/-- Claim C3, counterexample: a tab character is neither a digit, nor a
space, nor `+`, yet the input consisting of a single tab passes the character
check (Go's `\s` class) and is rejected for its length, not for invalid
characters. -/
theorem C3_counterexample :
    (['\t'] : Str) ≠ [] ∧
    validateSpacing ['\t'] = none ∧
    ¬(isDigitChar '\t' = true ∨ '\t' = ' ' ∨ '\t' = '+') ∧
    ValidatePhoneNumber ['\t'] ['U', 'S'] ≠ .error .invalidCharacters ∧
    ValidatePhoneNumber ['\t'] ['U', 'S'] =
      .error (.lengthInvalid ['U', 'S']) := by
  decide

/-- Claim C3, amended: for every non-empty input passing the spacing check,
validation fails with `invalid characters` exactly when the input contains a
character outside the class `[\d\s+]` — digits, Go whitespace
(tab, newline, form feed, carriage return, space), and `+` anywhere; in
particular a string of digits, spaces and `+` signs is never rejected for
invalid characters. -/
theorem C3_invalid_characters (s cc : Str) (h0 : s ≠ [])
    (h1 : validateSpacing s = none) :
    ValidatePhoneNumber s cc = .error .invalidCharacters ↔
      ¬ s.all isValidPhoneChar = true := by
  rw [ValidatePhoneNumber, if_neg h0]
  simp only [h1]
  by_cases hv : s.all isValidPhoneChar = true
  · have hcl : cleanPhoneNumber s = .ok (s.filter (· ≠ ' ')) := by
      rw [cleanPhoneNumber, if_pos ⟨h0, hv⟩]
    simp only [hcl, hv, not_true, iff_false]
    intro h
    cases hp : parsePhoneNumber (s.filter (· ≠ ' ')) cc with
    | error e =>
      simp only [hp] at h
      injection h with h2
      rcases parsePhoneNumber_error_cases hp with rfl | rfl | rfl
      all_goals simp at h2
    | ok tr =>
      obtain ⟨C, a, l⟩ := tr
      simp only [hp] at h
      cases hvc : validateCountryCode C with
      | some e =>
        simp only [hvc] at h
        injection h with h2
        rcases validateCountryCode_error_cases hvc with rfl | rfl
        all_goals simp at h2
      | none =>
        simp only [hvc] at h
        cases hpl : validatePhoneLength (a ++ l) C with
        | some e =>
          simp only [hpl] at h
          injection h with h2
          rcases validatePhoneLength_error_cases hpl with rfl | rfl
          all_goals simp at h2
        | none =>
          simp only [hpl] at h
          simp at h
  · have hcl : cleanPhoneNumber s = .error .invalidCharacters := by
      rw [cleanPhoneNumber, if_neg]
      rintro ⟨-, hall⟩
      exact hv hall
    simp only [hcl, hv, not_false_iff, iff_true]
    simp

theorem C3_witness :
    (['2', '1', '2', '-', '5', '6', '9'] : Str) ≠ [] ∧
    validateSpacing ['2', '1', '2', '-', '5', '6', '9'] = none ∧
    (ValidatePhoneNumber ['2', '1', '2', '-', '5', '6', '9'] ['U', 'S'] =
        .error .invalidCharacters ↔
      ¬ (['2', '1', '2', '-', '5', '6', '9'] : Str).all isValidPhoneChar = true) :=
  ⟨by decide, by decide,
   C3_invalid_characters ['2', '1', '2', '-', '5', '6', '9'] ['U', 'S']
     (by decide) (by decide)⟩

/-- Claim C1, amended: for every supported country except CA, a digit string
with a valid national length formats canonically to `+` ++ dialing code ++
area code ++ local number, and validating that canonical string with no
supplied country code succeeds with the same country, area code and local
number; for CA (whose dialing code 1 reverse-maps to US) the canonical string
validates to US with the same area code and local number. -/
theorem C1_roundtrip (C : Str) (hC : C ∈ supportedCountryCodes) (n : Str)
    (hd : n.all isDigitChar = true) (mn mx : Nat)
    (hr : CountryPhoneLengths C = some (mn, mx))
    (h1 : mn ≤ n.length) (h2 : n.length ≤ mx) :
    formatPhoneNumber C (splitNationalNumber n C).1 (splitNationalNumber n C).2 =
      '+' :: (((CountryDialingCodes C).getD []) ++ n) ∧
    ValidatePhoneNumber ('+' :: (((CountryDialingCodes C).getD []) ++ n)) [] =
      .ok ⟨'+' :: (((CountryDialingCodes C).getD []) ++ n),
           if C = ['C', 'A'] then ['U', 'S'] else C,
           (splitNationalNumber n C).1, (splitNationalNumber n C).2⟩ := by
  fin_cases hC
  · rw [show CountryPhoneLengths ['U', 'S'] = some (10, 10) from rfl,
      Option.some.injEq, Prod.mk.injEq] at hr
    obtain ⟨rfl, rfl⟩ := hr
    refine ⟨?_, ?_⟩
    · simp [formatPhoneNumber, CountryDialingCodes, List.cons_append, split_concat]
    · have hpl : validatePhoneLength
          ((splitNationalNumber n ['U', 'S']).1 ++ (splitNationalNumber n ['U', 'S']).2)
          ['U', 'S'] = none := by
        rw [split_concat]
        simp [validatePhoneLength, CountryPhoneLengths]
        omega
      have hmain := ValidatePhoneNumber_plus_ok ['1'] n ['U', 'S'] (by decide)
        (by decide) hd (by omega) (by decide) (by decide) hpl
      simpa [CountryDialingCodes, formatPhoneNumber, split_concat, List.cons_append]
        using hmain
  · rw [show CountryPhoneLengths ['C', 'A'] = some (10, 10) from rfl,
      Option.some.injEq, Prod.mk.injEq] at hr
    obtain ⟨rfl, rfl⟩ := hr
    refine ⟨?_, ?_⟩
    · simp [formatPhoneNumber, CountryDialingCodes, List.cons_append, split_concat]
    · have hpl : validatePhoneLength
          ((splitNationalNumber n ['U', 'S']).1 ++ (splitNationalNumber n ['U', 'S']).2)
          ['U', 'S'] = none := by
        rw [split_concat]
        simp [validatePhoneLength, CountryPhoneLengths]
        omega
      have hmain := ValidatePhoneNumber_plus_ok ['1'] n ['U', 'S'] (by decide)
        (by decide) hd (by omega) (by decide) (by decide) hpl
      simpa [CountryDialingCodes, formatPhoneNumber, split_concat, List.cons_append,
        splitNationalNumber_CA]
        using hmain
  · rw [show CountryPhoneLengths ['M', 'X'] = some (10, 10) from rfl,
      Option.some.injEq, Prod.mk.injEq] at hr
    obtain ⟨rfl, rfl⟩ := hr
    refine ⟨?_, ?_⟩
    · simp [formatPhoneNumber, CountryDialingCodes, List.cons_append, split_concat]
    · have hpl : validatePhoneLength
          ((splitNationalNumber n ['M', 'X']).1 ++ (splitNationalNumber n ['M', 'X']).2)
          ['M', 'X'] = none := by
        rw [split_concat]
        simp [validatePhoneLength, CountryPhoneLengths]
        omega
      have hmain := ValidatePhoneNumber_plus_ok ['5', '2'] n ['M', 'X'] (by decide)
        (by decide) hd (by omega) (by decide) (by decide) hpl
      simpa [CountryDialingCodes, formatPhoneNumber, split_concat, List.cons_append]
        using hmain
  · rw [show CountryPhoneLengths ['E', 'S'] = some (9, 9) from rfl,
      Option.some.injEq, Prod.mk.injEq] at hr
    obtain ⟨rfl, rfl⟩ := hr
    refine ⟨?_, ?_⟩
    · simp [formatPhoneNumber, CountryDialingCodes, List.cons_append, split_concat]
    · have hpl : validatePhoneLength
          ((splitNationalNumber n ['E', 'S']).1 ++ (splitNationalNumber n ['E', 'S']).2)
          ['E', 'S'] = none := by
        rw [split_concat]
        simp [validatePhoneLength, CountryPhoneLengths]
        omega
      have hmain := ValidatePhoneNumber_plus_ok ['3', '4'] n ['E', 'S'] (by decide)
        (by decide) hd (by omega) (by decide) (by decide) hpl
      simpa [CountryDialingCodes, formatPhoneNumber, split_concat, List.cons_append]
        using hmain
  · rw [show CountryPhoneLengths ['P', 'T'] = some (9, 9) from rfl,
      Option.some.injEq, Prod.mk.injEq] at hr
    obtain ⟨rfl, rfl⟩ := hr
    refine ⟨?_, ?_⟩
    · simp [formatPhoneNumber, CountryDialingCodes, List.cons_append, split_concat]
    · have hpl : validatePhoneLength
          ((splitNationalNumber n ['P', 'T']).1 ++ (splitNationalNumber n ['P', 'T']).2)
          ['P', 'T'] = none := by
        rw [split_concat]
        simp [validatePhoneLength, CountryPhoneLengths]
        omega
      have hmain := ValidatePhoneNumber_plus_ok ['3', '5', '1'] n ['P', 'T'] (by decide)
        (by decide) hd (by omega) (by decide) (by decide) hpl
      simpa [CountryDialingCodes, formatPhoneNumber, split_concat, List.cons_append]
        using hmain
  · rw [show CountryPhoneLengths ['G', 'B'] = some (10, 11) from rfl,
      Option.some.injEq, Prod.mk.injEq] at hr
    obtain ⟨rfl, rfl⟩ := hr
    refine ⟨?_, ?_⟩
    · simp [formatPhoneNumber, CountryDialingCodes, List.cons_append, split_concat]
    · have hpl : validatePhoneLength
          ((splitNationalNumber n ['G', 'B']).1 ++ (splitNationalNumber n ['G', 'B']).2)
          ['G', 'B'] = none := by
        rw [split_concat]
        simp [validatePhoneLength, CountryPhoneLengths]
        omega
      have hmain := ValidatePhoneNumber_plus_ok ['4', '4'] n ['G', 'B'] (by decide)
        (by decide) hd (by omega) (by decide) (by decide) hpl
      simpa [CountryDialingCodes, formatPhoneNumber, split_concat, List.cons_append]
        using hmain
  · rw [show CountryPhoneLengths ['F', 'R'] = some (10, 10) from rfl,
      Option.some.injEq, Prod.mk.injEq] at hr
    obtain ⟨rfl, rfl⟩ := hr
    refine ⟨?_, ?_⟩
    · simp [formatPhoneNumber, CountryDialingCodes, List.cons_append, split_concat]
    · have hpl : validatePhoneLength
          ((splitNationalNumber n ['F', 'R']).1 ++ (splitNationalNumber n ['F', 'R']).2)
          ['F', 'R'] = none := by
        rw [split_concat]
        simp [validatePhoneLength, CountryPhoneLengths]
        omega
      have hmain := ValidatePhoneNumber_plus_ok ['3', '3'] n ['F', 'R'] (by decide)
        (by decide) hd (by omega) (by decide) (by decide) hpl
      simpa [CountryDialingCodes, formatPhoneNumber, split_concat, List.cons_append]
        using hmain
  · rw [show CountryPhoneLengths ['D', 'E'] = some (10, 12) from rfl,
      Option.some.injEq, Prod.mk.injEq] at hr
    obtain ⟨rfl, rfl⟩ := hr
    refine ⟨?_, ?_⟩
    · simp [formatPhoneNumber, CountryDialingCodes, List.cons_append, split_concat]
    · have hpl : validatePhoneLength
          ((splitNationalNumber n ['D', 'E']).1 ++ (splitNationalNumber n ['D', 'E']).2)
          ['D', 'E'] = none := by
        rw [split_concat]
        simp [validatePhoneLength, CountryPhoneLengths]
        omega
      have hmain := ValidatePhoneNumber_plus_ok ['4', '9'] n ['D', 'E'] (by decide)
        (by decide) hd (by omega) (by decide) (by decide) hpl
      simpa [CountryDialingCodes, formatPhoneNumber, split_concat, List.cons_append]
        using hmain
  · rw [show CountryPhoneLengths ['I', 'T'] = some (9, 11) from rfl,
      Option.some.injEq, Prod.mk.injEq] at hr
    obtain ⟨rfl, rfl⟩ := hr
    refine ⟨?_, ?_⟩
    · simp [formatPhoneNumber, CountryDialingCodes, List.cons_append, split_concat]
    · have hpl : validatePhoneLength
          ((splitNationalNumber n ['I', 'T']).1 ++ (splitNationalNumber n ['I', 'T']).2)
          ['I', 'T'] = none := by
        rw [split_concat]
        simp [validatePhoneLength, CountryPhoneLengths]
        omega
      have hmain := ValidatePhoneNumber_plus_ok ['3', '9'] n ['I', 'T'] (by decide)
        (by decide) hd (by omega) (by decide) (by decide) hpl
      simpa [CountryDialingCodes, formatPhoneNumber, split_concat, List.cons_append]
        using hmain
  · rw [show CountryPhoneLengths ['B', 'R'] = some (10, 11) from rfl,
      Option.some.injEq, Prod.mk.injEq] at hr
    obtain ⟨rfl, rfl⟩ := hr
    refine ⟨?_, ?_⟩
    · simp [formatPhoneNumber, CountryDialingCodes, List.cons_append, split_concat]
    · have hpl : validatePhoneLength
          ((splitNationalNumber n ['B', 'R']).1 ++ (splitNationalNumber n ['B', 'R']).2)
          ['B', 'R'] = none := by
        rw [split_concat]
        simp [validatePhoneLength, CountryPhoneLengths]
        omega
      have hmain := ValidatePhoneNumber_plus_ok ['5', '5'] n ['B', 'R'] (by decide)
        (by decide) hd (by omega) (by decide) (by decide) hpl
      simpa [CountryDialingCodes, formatPhoneNumber, split_concat, List.cons_append]
        using hmain


/-- Claim C1, counterexample: CA's digit string 2125690123 has a valid CA
length and formats to +12125690123, but validating that canonical string with
no supplied country code yields US, not CA. -/
theorem C1_counterexample :
    CountryPhoneLengths ['C', 'A'] = some (10, 10) ∧
    (['2', '1', '2', '5', '6', '9', '0', '1', '2', '3'] : Str).all isDigitChar =
      true ∧
    formatPhoneNumber ['C', 'A']
        (splitNationalNumber ['2', '1', '2', '5', '6', '9', '0', '1', '2', '3']
          ['C', 'A']).1
        (splitNationalNumber ['2', '1', '2', '5', '6', '9', '0', '1', '2', '3']
          ['C', 'A']).2 =
      ['+', '1', '2', '1', '2', '5', '6', '9', '0', '1', '2', '3'] ∧
    (ValidatePhoneNumber ['+', '1', '2', '1', '2', '5', '6', '9', '0', '1', '2', '3']
        []).map (fun r => r.countryCode) = .ok ['U', 'S'] ∧
    (['U', 'S'] : Str) ≠ ['C', 'A'] := by
  decide

theorem C1_witness :
    (['U', 'S'] : Str) ∈ supportedCountryCodes ∧
    (['2', '1', '2', '5', '6', '9', '0', '1', '2', '3'] : Str).all isDigitChar =
      true ∧
    CountryPhoneLengths ['U', 'S'] = some (10, 10) ∧
    10 ≤ (['2', '1', '2', '5', '6', '9', '0', '1', '2', '3'] : Str).length ∧
    (['2', '1', '2', '5', '6', '9', '0', '1', '2', '3'] : Str).length ≤ 10 ∧
    (formatPhoneNumber ['U', 'S']
        (splitNationalNumber ['2', '1', '2', '5', '6', '9', '0', '1', '2', '3']
          ['U', 'S']).1
        (splitNationalNumber ['2', '1', '2', '5', '6', '9', '0', '1', '2', '3']
          ['U', 'S']).2 =
      '+' :: (((CountryDialingCodes ['U', 'S']).getD []) ++
        ['2', '1', '2', '5', '6', '9', '0', '1', '2', '3']) ∧
    ValidatePhoneNumber
        ('+' :: (((CountryDialingCodes ['U', 'S']).getD []) ++
          ['2', '1', '2', '5', '6', '9', '0', '1', '2', '3'])) [] =
      .ok ⟨'+' :: (((CountryDialingCodes ['U', 'S']).getD []) ++
            ['2', '1', '2', '5', '6', '9', '0', '1', '2', '3']),
           if (['U', 'S'] : Str) = ['C', 'A'] then ['U', 'S'] else ['U', 'S'],
           (splitNationalNumber ['2', '1', '2', '5', '6', '9', '0', '1', '2', '3']
             ['U', 'S']).1,
           (splitNationalNumber ['2', '1', '2', '5', '6', '9', '0', '1', '2', '3']
             ['U', 'S']).2⟩) :=
  ⟨by decide, by decide, by decide, by decide, by decide,
   C1_roundtrip ['U', 'S'] (by decide)
     ['2', '1', '2', '5', '6', '9', '0', '1', '2', '3'] (by decide) 10 10 rfl
     (by decide) (by decide)⟩

end PhoneApi
